import Mathlib

set_option maxRecDepth 1000000

/-!
Verification development for the email classification engine in
`app/models.py` (class `EmailClassifier`).  The Python code is shallowly
embedded: text is `List Char`, floating point arithmetic is modelled by
exact rationals (`ℚ`), dictionaries keyed by the six fixed categories are
functions `Category → ℚ`, and the regular expressions used by the code are
translated into executable scanners that implement the semantics of each
concrete pattern.  All recursion is structural so every definition
evaluates inside the kernel.
-/

namespace SpamDetect

/- ### Character classes (ASCII, as used by Python `str`/`re` on this data) -/

/-- Python whitespace (`str.split`, `str.strip`, `\s` for ASCII text). -/
def isPySpace (c : Char) : Bool :=
  c = ' ' || c = '\t' || c = '\n' || c = '\r' || c = Char.ofNat 11 || c = Char.ofNat 12

/-- ASCII uppercase letter, Python `c.isupper()` on ASCII text. -/
def isUpperChar (c : Char) : Bool := 'A' ≤ c && c ≤ 'Z'

/-- ASCII lowercase letter. -/
def isLowerChar (c : Char) : Bool := 'a' ≤ c && c ≤ 'z'

/-- ASCII letter (`[A-Za-z]`). -/
def isLetterChar (c : Char) : Bool := isUpperChar c || isLowerChar c

/-- ASCII digit (`\d`). -/
def isDigitChar (c : Char) : Bool := '0' ≤ c && c ≤ '9'

/-- Regex word character `\w` = `[A-Za-z0-9_]` for ASCII text. -/
def isWordChar (c : Char) : Bool := isLetterChar c || isDigitChar c || c = '_'

/-- Python `str.lower` on an ASCII character. -/
def toLowerChar (c : Char) : Char :=
  if isUpperChar c then Char.ofNat (c.toNat + 32) else c

/-- Lowercase a text, Python `text.lower()`. -/
def lowerText (t : List Char) : List Char := t.map toLowerChar

/- ### Python string primitives -/

/-- Python `str.strip()`: drop leading and trailing whitespace. -/
def pyStrip (t : List Char) : List Char :=
  ((t.dropWhile isPySpace).reverse.dropWhile isPySpace).reverse

/-- Collapse each maximal whitespace run into a single space:
`re.sub(r'\s+', ' ', text)`. The boolean tracks whether we are inside a
whitespace run whose replacement space was already emitted. -/
def collapseWsGo : Bool → List Char → List Char
  | _, [] => []
  | inRun, c :: rest =>
    if isPySpace c then
      if inRun then collapseWsGo true rest else ' ' :: collapseWsGo true rest
    else c :: collapseWsGo false rest

/-- `EmailClassifier._clean_text`: lowercase, collapse whitespace, strip. -/
def cleanText (t : List Char) : List Char :=
  pyStrip (collapseWsGo false (lowerText t))

/-- Split into maximal runs of characters for which `sep` is false,
dropping empty fragments.  With `sep = isPySpace` this is Python
`str.split()` (no argument). -/
def splitRunsGo (sep : Char → Bool) (cur : List Char) : List Char → List (List Char)
  | [] => if cur.isEmpty then [] else [cur.reverse]
  | c :: rest =>
    if sep c then
      if cur.isEmpty then splitRunsGo sep [] rest
      else cur.reverse :: splitRunsGo sep [] rest
    else splitRunsGo sep (c :: cur) rest

def splitRuns (sep : Char → Bool) (t : List Char) : List (List Char) :=
  splitRunsGo sep [] t

/-- Python `str.split()` with no arguments. -/
def pySplit (t : List Char) : List (List Char) := splitRuns isPySpace t

/-- Substring test, Python `sub in t` (empty substring is always found). -/
def containsSub (sub : List Char) : List Char → Bool
  | [] => sub.isEmpty
  | c :: rest => sub.isPrefixOf (c :: rest) || containsSub sub rest

/-- Non-overlapping occurrence counter for a nonempty pattern: after a hit
the scan resumes past the matched characters (`skip` positions are still
to be consumed from a previous hit). Python `str.count` semantics. -/
def countSubGo (sub : List Char) : Nat → List Char → Nat
  | _, [] => 0
  | skip + 1, _ :: rest => countSubGo sub skip rest
  | 0, c :: rest =>
    if sub.isPrefixOf (c :: rest) then 1 + countSubGo sub (sub.length - 1) rest
    else countSubGo sub 0 rest

/-- Python `t.count(sub)` (counts `len+1` empty-string positions, matching
Python; all keywords in the tables are nonempty). -/
def countSub (sub t : List Char) : Nat :=
  if sub.isEmpty then t.length + 1 else countSubGo sub 0 t

/-- Number of `'!'` characters, Python `text.count('!')`. -/
def bangCount (t : List Char) : Nat := t.countP (· = '!')

/- ### The six classification categories -/

/-- The six fixed categories, in the dictionary's declaration order. -/
inductive Category
  | spam | not_spam | promotional | phishing | newsletter | social
deriving DecidableEq, Repr, Fintype

open Category

/-- Declaration order of the category dictionary (Python `dict` preserves
insertion order). -/
def categoryOrder : List Category :=
  [spam, not_spam, promotional, phishing, newsletter, social]

/-- Position in the declaration order, used to state tie-breaking. -/
def catIdx : Category → Nat
  | spam => 0 | not_spam => 1 | promotional => 2
  | phishing => 3 | newsletter => 4 | social => 5

/-- The string key of each category in the Python dictionaries. -/
def catName : Category → String
  | spam => "spam" | not_spam => "not_spam" | promotional => "promotional"
  | phishing => "phishing" | newsletter => "newsletter" | social => "social"

/-- `categories[c]['weight']`. -/
def catWeight : Category → ℚ
  | spam => 3 | not_spam => 1 | promotional => 2
  | phishing => 4 | newsletter => 1 | social => 3/2

/-- `categories[c]['display_name']`. -/
def catDisplay : Category → String
  | spam => "Spam" | not_spam => "Not Spam" | promotional => "Promotional"
  | phishing => "Phishing" | newsletter => "Newsletter" | social => "Social"

/-- `categories[c]['color']`. -/
def catColor : Category → String
  | spam => "#dc3545" | not_spam => "#28a745" | promotional => "#fd7e14"
  | phishing => "#dc3545" | newsletter => "#17a2b8" | social => "#6f42c1"

/-- `categories[c]['icon']`. -/
def catIcon : Category → String
  | spam => "⚠️" | not_spam => "✅" | promotional => "🏷️"
  | phishing => "🎣" | newsletter => "📰" | social => "👥"

/-- `categories[c]['keywords']`. -/
def catKeywords : Category → List String
  | spam =>
    ["free", "money", "cash", "winner", "lottery", "congratulations",
     "urgent", "act now", "limited time", "guaranteed", "bonus",
     "win", "prize", "claim", "inheritance", "million", "dollars",
     "viagra", "pills", "weight loss", "make money fast", "earn money"]
  | not_spam =>
    ["meeting", "schedule", "regards", "best", "thank you", "please",
     "project", "work", "team", "update", "sincerely", "business",
     "attached", "report", "deadline", "conference", "colleague"]
  | promotional =>
    ["sale", "discount", "offer", "promotion", "coupon", "save",
     "special", "exclusive", "deal", "shop now", "buy", "store",
     "black friday", "cyber monday", "clearance", "markdown"]
  | phishing =>
    ["verify account", "suspended", "security alert", "update payment",
     "confirm identity", "account locked", "expires today", "click here immediately",
     "immediate action", "suspended account", "security breach", "verify now",
     "update billing", "confirm details"]
  | newsletter =>
    ["newsletter", "subscribe", "unsubscribe", "monthly", "weekly",
     "updates", "news", "insights", "industry", "publication", "digest",
     "edition", "issue", "article", "blog post"]
  | social =>
    ["friend request", "notification", "tagged", "liked", "shared",
     "comment", "follow", "connect", "facebook", "instagram", "twitter",
     "linkedin", "social media", "profile", "post"]

/- ### Regex scanners

Each regular expression of `self.patterns` / the feature extractor is
translated into a scanner specialised to that pattern.  `re.search`
presence tests become boolean scans; `re.findall` counters become
non-overlapping match counters that skip past each greedy match, exactly
as the `re` engine does. -/

/-- Was the previous character a word character? (`none` = start of text,
which counts as a non-word side for `\b`.) -/
def prevIsWord : Option Char → Bool
  | none => false
  | some c => isWordChar c

/-- `\b` holds after the end of a match: the next character is absent or a
non-word character (all patterns using this end in a word character). -/
def boundaryAfter : List Char → Bool
  | [] => true
  | d :: _ => !isWordChar d

/-- Search for `\b(?:w₁|w₂|…)\b` where every alternative starts and ends
with a word character: at some position the previous character is
non-word, one alternative is a literal prefix, and a boundary follows. -/
def wordAltSearchGo (ws : List (List Char)) : Option Char → List Char → Bool
  | _, [] => false
  | p, c :: rest =>
    (!prevIsWord p &&
      ws.any (fun w => w.isPrefixOf (c :: rest) && boundaryAfter ((c :: rest).drop w.length)))
    || wordAltSearchGo ws (some c) rest

def wordAltSearch (ws : List String) (t : List Char) : Bool :=
  wordAltSearchGo (ws.map String.data) none t

/-- `patterns['urgency'] = \b(?:urgent|immediate|expires?|hurry|act now|limited time|final notice)\b`
(`expires?` is expanded into its two alternatives). -/
def urgencySearch (t : List Char) : Bool :=
  wordAltSearch ["urgent", "immediate", "expires", "expire", "hurry",
                 "act now", "limited time", "final notice"] t

/-- `patterns['business_formal'] = \b(?:dear|sincerely|regards|meeting|schedule|attached)\b`. -/
def businessFormalSearch (t : List Char) : Bool :=
  wordAltSearch ["dear", "sincerely", "regards", "meeting", "schedule", "attached"] t

/-- `patterns['social_words'] = \b(?:like|share|follow|friend|connect|tag)\b`. -/
def socialWordsSearch (t : List Char) : Bool :=
  wordAltSearch ["like", "share", "follow", "friend", "connect", "tag"] t

/-- `patterns['suspicious_phrases'] = \b(?:click here|act now|limited time|expires today|verify now)\b`. -/
def suspiciousSearch (t : List Char) : Bool :=
  wordAltSearch ["click here", "act now", "limited time", "expires today", "verify now"] t

/-- `patterns['multiple_exclamation'] = !{2,}`: two consecutive `!`. -/
def multiExclamSearch : List Char → Bool
  | '!' :: '!' :: _ => true
  | _ :: rest => multiExclamSearch rest
  | [] => false

/-- Greedy match of `patterns['money_amounts'] =
`\$\d{1,3}(?:,\d{3})*(?:\.\d{2})?` at the head of the list, returning the
match length.  The regex is deterministic here: `\d{1,3}` takes at most
three leading digits, each `,\d{3}` group needs a comma and exactly three
digits, the optional `.\d{2}` needs a dot and exactly two digits. -/
def moneyGroups : Nat → List Char → Nat
  | 0, _ => 0
  | _ + 1, ',' :: a :: b :: c :: rest =>
    if isDigitChar a && isDigitChar b && isDigitChar c then
      4 + moneyGroups rest.length rest
    else 0
  | _ + 1, _ => 0

def moneyCents : List Char → Nat
  | '.' :: a :: b :: _ => if isDigitChar a && isDigitChar b then 3 else 0
  | _ => 0

def matchMoney (l : List Char) : Option Nat :=
  match l with
  | '$' :: rest =>
    let d := min 3 ((rest.takeWhile isDigitChar).length)
    if d = 0 then none
    else
      let rest2 := rest.drop d
      let g := moneyGroups rest2.length rest2
      some (1 + d + g + moneyCents (rest2.drop g))
  | _ => none

/-- `re.search(patterns['money_amounts'], text)`: a `$` immediately
followed by a digit. -/
def moneySearch : List Char → Bool
  | [] => false
  | c :: rest => (matchMoney (c :: rest)).isSome || moneySearch rest

/-- Greedy match at head for `https?://\S+` (first alternative of the
`url_count` regex and the whole regex of the `Multiple URLs` check). -/
def matchHttpUrl (l : List Char) : Option Nat :=
  if "https://".data.isPrefixOf l then
    let n := ((l.drop 8).takeWhile (fun c => !isPySpace c)).length
    if n = 0 then none else some (8 + n)
  else if "http://".data.isPrefixOf l then
    let n := ((l.drop 7).takeWhile (fun c => !isPySpace c)).length
    if n = 0 then none else some (7 + n)
  else none

/-- Greedy match at head for `https?://\S+|www\.\S+`
(`patterns` used by the `url_count` feature). -/
def matchUrl (l : List Char) : Option Nat :=
  match matchHttpUrl l with
  | some n => some n
  | none =>
    if "www.".data.isPrefixOf l then
      let n := ((l.drop 4).takeWhile (fun c => !isPySpace c)).length
      if n = 0 then none else some (4 + n)
    else none

/-- Count the non-overlapping matches of a head matcher in a scan over the
whole text, advancing past every match — the semantics of `re.findall`
for these patterns.  `skip` positions of a previous match are still being
consumed; every matcher used here returns a length of at least 1. -/
def countMatchesGo (m : List Char → Option Nat) : Nat → List Char → Nat
  | _, [] => 0
  | skip + 1, _ :: rest => countMatchesGo m skip rest
  | 0, c :: rest =>
    match m (c :: rest) with
    | some n => 1 + countMatchesGo m (n - 1) rest
    | none => countMatchesGo m 0 rest

def countMatches (m : List Char → Option Nat) (t : List Char) : Nat :=
  countMatchesGo m 0 t

/-- As `countMatchesGo`, for matchers that need the previous character to
decide a leading `\b`. -/
def countMatchesPGo (m : Option Char → List Char → Option Nat) :
    Option Char → Nat → List Char → Nat
  | _, _, [] => 0
  | _, skip + 1, c :: rest => countMatchesPGo m (some c) skip rest
  | p, 0, c :: rest =>
    match m p (c :: rest) with
    | some n => 1 + countMatchesPGo m (some c) (n - 1) rest
    | none => countMatchesPGo m (some c) 0 rest

def countMatchesP (m : Option Char → List Char → Option Nat) (t : List Char) : Nat :=
  countMatchesPGo m none 0 t

/-- `-` or `.`, the optional separator class `[-.]` of the phone regex. -/
def isSepDash (c : Char) : Bool := c = '-' || c = '.'

/-- Consume exactly `n` digits. -/
def takeDigits : Nat → List Char → Option (List Char)
  | 0, l => some l
  | _ + 1, [] => none
  | n + 1, c :: rest => if isDigitChar c then takeDigits n rest else none

/-- Consume one `[-.]` separator if present (`[-.]?`; when a separator is
present the regex must consume it, since on failure of the following
digit group backtracking to the empty option also fails on the
non-digit separator). -/
def dropSep : List Char → List Char
  | [] => []
  | c :: rest => if isSepDash c then rest else c :: rest

/-- Match `\b\d{3}[-.]?\d{3}[-.]?\d{4}\b` at the head (`phone_numbers`
feature); `p` is the previous character for the leading `\b`. -/
def matchPhone (p : Option Char) (l : List Char) : Option Nat :=
  if prevIsWord p then none
  else
    match takeDigits 3 l with
    | none => none
    | some r1 =>
      match takeDigits 3 (dropSep r1) with
      | none => none
      | some r2 =>
        match takeDigits 4 (dropSep r2) with
        | none => none
        | some r3 => if boundaryAfter r3 then some (l.length - r3.length) else none

/-- Character classes of the email regex
`\b[A-Za-z0-9._%+-]+@[A-Za-z0-9.-]+\.[A-Z|a-z]{2,}\b`. -/
def isLocalChar (c : Char) : Bool :=
  isLetterChar c || isDigitChar c || c = '.' || c = '_' || c = '%' || c = '+' || c = '-'

def isDomainChar (c : Char) : Bool :=
  isLetterChar c || isDigitChar c || c = '.' || c = '-'

def isTldChar (c : Char) : Bool := isLetterChar c || c = '|'

/-- Word/non-word boundary test `\b` between positions `n-1` and `n` of
`s` (an absent character counts as the non-word side). -/
def bAfterAt (s : List Char) (n : Nat) : Bool :=
  (match s[n - 1]? with | some c => isWordChar c | none => false)
    != (match s[n]? with | some c => isWordChar c | none => false)

/-- Backtracking of `[A-Z|a-z]{2,}\b`: starting from the greedy length,
find the longest `n ≥ 2` whose following position is a boundary. -/
def tldTry (s : List Char) : Nat → Option Nat
  | 0 => none
  | 1 => none
  | n + 2 => if bAfterAt s (n + 2) then some (n + 2) else tldTry s (n + 1)

/-- Backtracking of `[A-Za-z0-9.-]+\.[A-Z|a-z]{2,}\b` after the `@`:
try the dot at offsets `k, k-1, …, 1` of the greedy domain run (offset
`m`, one past the run, can never be the dot), longest first, returning
`(k, tld length)` for the first success. -/
def domTry (r2 : List Char) : Nat → Option (Nat × Nat)
  | 0 => none
  | k + 1 =>
    if r2[k + 1]? = some '.' then
      let s := r2.drop (k + 2)
      match tldTry s ((s.takeWhile isTldChar).length) with
      | some j => some (k + 1, j)
      | none => domTry r2 k
    else domTry r2 k

/-- Match the email regex at the head of `l` (`email_addresses` feature):
leading `\b`, greedy local part (the `@` can only follow the maximal
local run since `@` is outside the class), literal `@`, then the
backtracking domain/TLD search. -/
def matchEmail (p : Option Char) (l : List Char) : Option Nat :=
  match l with
  | [] => none
  | c :: _ =>
    if prevIsWord p == isWordChar c then none
    else
      let n := (l.takeWhile isLocalChar).length
      if n = 0 then none
      else
        match l.drop n with
        | '@' :: r2 =>
          let m := (r2.takeWhile isDomainChar).length
          if m = 0 then none
          else
            match domTry r2 (m - 1) with
            | some (k, j) => some (n + 1 + (k + 1) + j)
            | none => none
        | _ => none

/-- Length of the maximal ASCII-letter run at the head. -/
def letterRunLen (l : List Char) : Nat := (l.takeWhile isLetterChar).length

/-- Search for `patterns['caps_words'] = \b[A-Z]{4,}\b` under
`re.IGNORECASE`, i.e. `\b[A-Za-z]{4,}\b`: some position after a non-word
character starts a maximal letter run of length at least 4 followed by a
non-word character or the end (shorter backtracked runs always abut a
letter, so only the maximal run can satisfy the trailing `\b`). -/
def capsWordsGo : Bool → List Char → Bool
  | _, [] => false
  | pw, c :: rest =>
    (!pw && decide (4 ≤ letterRunLen (c :: rest)) &&
      boundaryAfter ((c :: rest).drop (letterRunLen (c :: rest))))
    || capsWordsGo (isWordChar c) rest

def capsWordsSearch (t : List Char) : Bool := capsWordsGo false t

/- ### Feature extraction (`_extract_features`) -/

/-- The Features record of `_extract_features`, one field per dictionary
key. -/
structure Features where
  char_count : ℕ
  word_count : ℕ
  sentence_count : ℕ
  avg_word_length : ℚ
  exclamation_count : ℕ
  question_count : ℕ
  caps_ratio : ℚ
  url_count : ℕ
  email_addresses : ℕ
  phone_numbers : ℕ
  money_mentions : ℕ
deriving DecidableEq, Repr

/-- Sentence separators of `re.split(r'[.!?]+', text)`. -/
def isSentSep (c : Char) : Bool := c = '.' || c = '!' || c = '?'

/-- `EmailClassifier._extract_features` on the raw (original-case) text. -/
def extractFeatures (t : List Char) : Features :=
  let words := pySplit t
  { char_count := t.length
    word_count := words.length
    sentence_count :=
      ((splitRuns isSentSep t).filter (fun s => !(pyStrip s).isEmpty)).length
    avg_word_length := ((words.map List.length).sum : ℚ) / (max words.length 1 : ℕ)
    exclamation_count := bangCount t
    question_count := t.countP (· = '?')
    caps_ratio := (t.countP (fun c => isUpperChar c) : ℚ) / (max t.length 1 : ℕ)
    url_count := countMatches matchUrl t
    email_addresses := countMatchesP matchEmail t
    phone_numbers := countMatchesP matchPhone t
    money_mentions := countMatches matchMoney t }

/- ### The three scorers -/

/-- Bonus factor `1.5 if len(keyword.split()) > 1 else 1.0`. -/
def contextBonus (k : List Char) : ℚ :=
  if (pySplit k).length > 1 then 3/2 else 1

/-- `EmailClassifier._keyword_classification` on the cleaned text:
for each keyword present in the text add
`weight * frequency * context_bonus`, then divide by 20 and clamp at 1. -/
def keywordRaw (ct : List Char) (c : Category) : ℚ :=
  (((catKeywords c).map String.data).map (fun k =>
    if containsSub k ct then catWeight c * (countSub k ct : ℕ) * contextBonus k else 0)).sum

def keywordScores (ct : List Char) (c : Category) : ℚ :=
  min (keywordRaw ct c / 20) 1

/-- `EmailClassifier._pattern_classification` on the lowercased original
text: presence tests adding fixed deltas to fixed categories. -/
def patternScores (ot : List Char) (c : Category) : ℚ :=
  (if moneySearch ot then
    match c with | .spam => 2/5 | .promotional => 1/5 | _ => 0
   else 0)
  + (if urgencySearch ot then
      match c with | .spam => 1/2 | .phishing => 3/5 | _ => 0
     else 0)
  + (if multiExclamSearch ot then
      match c with | .spam => 3/10 | .promotional => 1/5 | _ => 0
     else 0)
  + (if businessFormalSearch ot then
      match c with | .not_spam => 2/5 | .newsletter => 1/5 | _ => 0
     else 0)
  + (if socialWordsSearch ot then
      match c with | .social => 1/2 | _ => 0
     else 0)
  + (if ["newsletter", "unsubscribe", "edition"].any
        (fun w => containsSub w.data ot) then
      match c with | .newsletter => 2/5 | _ => 0
     else 0)

/-- Number of professional indicator phrases contained in the text. -/
def professionalCount (ot : List Char) : Nat :=
  (["dear", "sincerely", "regards", "best wishes", "thank you"].map String.data).countP
    (fun w => containsSub w ot)

/-- Number of social terms contained in the text. -/
def socialTermCount (ot : List Char) : Nat :=
  (["notification", "friend", "like", "share", "follow"].map String.data).countP
    (fun w => containsSub w ot)

/-- `EmailClassifier._context_classification` on the lowercased original
text and the extracted features. -/
def contextScores (ot : List Char) (f : Features) (c : Category) : ℚ :=
  (match c with
   | .not_spam =>
     if professionalCount ot ≥ 2 then 2/5
     else if professionalCount ot ≥ 1 then 1/5 else 0
   | _ => 0)
  + (match c with
     | .spam =>
       (if f.exclamation_count > 5 ∨ f.caps_ratio > 3/10 then 2/5 else 0)
       + (if f.money_mentions > 0 then 3/10 else 0)
     | _ => 0)
  + (match c with
     | .promotional => if f.money_mentions > 0 then 1/5 else 0
     | _ => 0)
  + (match c with
     | .newsletter =>
       if f.word_count > 100 ∧ containsSub "unsubscribe".data ot then 1/2 else 0
     | _ => 0)
  + (match c with
     | .social => if socialTermCount ot ≥ 2 then 2/5 else 0
     | _ => 0)

/- ### Score combination (`_intelligent_score_combination`) -/

/-- The weighted blend `keyword*0.4 + pattern*0.4 + context*0.2`. -/
def weightedCombine (ks ps cs : Category → ℚ) (c : Category) : ℚ :=
  ks c * (2/5) + ps c * (2/5) + cs c * (1/5)

/-- The floor rule: `combined['not_spam'] = 0.7` when every category's
combined score is below `0.2`. -/
def flooredCombine (ks ps cs : Category → ℚ) (c : Category) : ℚ :=
  if ∀ c' ∈ categoryOrder, weightedCombine ks ps cs c' < 1/5 then
    if c = Category.not_spam then 7/10 else weightedCombine ks ps cs c
  else weightedCombine ks ps cs c

/-- `total = sum(combined.values())` after the floor rule. -/
def combineTotal (ks ps cs : Category → ℚ) : ℚ :=
  (categoryOrder.map (flooredCombine ks ps cs)).sum

/-- `EmailClassifier._intelligent_score_combination`: weighted blend,
floor rule, then normalization by the total when it is positive.  The
`features` argument is the one the Python method receives (it is never
read by the method body). -/
def intelligentScoreCombination (ks ps cs : Category → ℚ) (features : Features)
    (c : Category) : ℚ :=
  if combineTotal ks ps cs > 0 then
    flooredCombine ks ps cs c / combineTotal ks ps cs
  else flooredCombine ks ps cs c

/- ### Risk assessment (`_assess_risk`) -/

/-- The `risk_thresholds` table with `dict.get`-fallback to the `spam`
entry, as `(high, medium)` percentages. -/
def riskThresholds (category : String) : ℚ × ℚ :=
  match category with
  | "spam" => (70, 40)
  | "phishing" => (60, 30)
  | "promotional" => (85, 50)
  | "not_spam" => (95, 80)
  | "newsletter" => (90, 60)
  | "social" => (80, 50)
  | _ => (70, 40)

/-- `EmailClassifier._assess_risk`; the `features` argument is received
and ignored exactly as in the Python method (`none` models the empty
dictionary of the degenerate path). -/
def assessRisk (category : String) (confidence : ℚ) (_features : Option Features) :
    String :=
  let thresholds := riskThresholds category
  let confidencePercent := if confidence ≤ 1 then confidence * 100 else confidence
  if confidencePercent ≥ thresholds.1 then "high"
  else if confidencePercent ≥ thresholds.2 then "medium"
  else "low"

/- ### Indicators (`_find_indicators`) -/

/-- `[label] if cond else []`: one conditional append of the indicator
list construction. -/
def addIf (b : Bool) (label : String) : List String :=
  if b then [label] else []

/-- `EmailClassifier._find_indicators` on the raw text.  The five regex
checks run under `re.IGNORECASE`, modelled by lowercasing the text for
the literal-based patterns (case-blind classes are applied directly);
the final `list(set(...))` is modelled by `List.dedup` (the Python set
only deduplicates — every label below is distinct anyway). -/
def findIndicators (t : List Char) : List String :=
  let lt := lowerText t
  (addIf (moneySearch lt) "Money Amount"
    ++ addIf (urgencySearch lt) "Urgency Words"
    ++ addIf (capsWordsSearch t) "Excessive Caps"
    ++ addIf (multiExclamSearch t) "Multiple Exclamations"
    ++ addIf (suspiciousSearch lt) "Suspicious Links"
    ++ addIf (decide (bangCount t > 5)) "Excessive Punctuation"
    ++ addIf (decide (countMatches matchHttpUrl t > 2)) "Multiple URLs").dedup

/- ### Result assembly (`_create_result`) and the orchestrator -/

/-- One entry of the formatted per-category score list. -/
structure ScoreEntry where
  category : String
  display_name : String
  score : ℚ
  color : String
deriving DecidableEq, Repr

/-- Round half to even (Python `round`), as an integer. -/
def rndHalfEven (x : ℚ) : ℤ :=
  let f := ⌊x⌋
  let r := x - f
  if r < 1/2 then f
  else if r > 1/2 then f + 1
  else if 2 ∣ f then f else f + 1

/-- Python `round(x, 1)`. -/
def round1 (x : ℚ) : ℚ := (rndHalfEven (10 * x) : ℚ) / 10

/-- Python `round(x, 2)`. -/
def round2 (x : ℚ) : ℚ := (rndHalfEven (100 * x) : ℚ) / 100

/-- Stable insertion of an entry into a list sorted by descending score:
the new (originally earlier) entry goes before the first strictly-smaller
tail and after entries with an equal or larger score. -/
def insertDesc (x : ScoreEntry) : List ScoreEntry → List ScoreEntry
  | [] => [x]
  | y :: ys => if x.score ≥ y.score then x :: y :: ys else y :: insertDesc x ys

/-- Stable sort by descending score:
`formatted_scores.sort(key=lambda x: x['score'], reverse=True)`. -/
def sortDesc : List ScoreEntry → List ScoreEntry
  | [] => []
  | x :: xs => insertDesc x (sortDesc xs)

/-- Display metadata for the result header:
`self.categories.get(category, {...'Unknown'...})` on the string key. -/
def lookupDisplay (category : String) : String × String × String :=
  match category with
  | "spam" => ("Spam", "#dc3545", "⚠️")
  | "not_spam" => ("Not Spam", "#28a745", "✅")
  | "promotional" => ("Promotional", "#fd7e14", "🏷️")
  | "phishing" => ("Phishing", "#dc3545", "🎣")
  | "newsletter" => ("Newsletter", "#17a2b8", "📰")
  | "social" => ("Social", "#6f42c1", "👥")
  | _ => ("Unknown", "#6c757d", "❓")

/-- The assembled analysis result.  `features = none` models the empty
feature dictionary of the degenerate path. -/
structure AnalysisResult where
  category : String
  display_name : String
  confidence : ℚ
  color : String
  icon : String
  scores : List ScoreEntry
  risk_level : String
  indicators : List String
  features : Option Features
deriving DecidableEq, Repr

/-- `EmailClassifier._create_result`; `scores` carries the items of the
score dictionary in insertion order (empty for the degenerate path). -/
def createResult (category : String) (confidence : ℚ)
    (scores : List (Category × ℚ)) (indicators : List String)
    (features : Option Features) : AnalysisResult :=
  let info := lookupDisplay category
  { category := category
    display_name := info.1
    confidence := round2 (confidence * 100)
    color := info.2.1
    icon := info.2.2
    scores := sortDesc (scores.map (fun p =>
      { category := catName p.1
        display_name := catDisplay p.1
        score := round1 (p.2 * 100)
        color := catColor p.1 }))
    risk_level := assessRisk category confidence features
    indicators := indicators
    features := features }

/-- `max(final_scores.items(), key=lambda x: x[1])[0]`: fold in insertion
order, replacing the current best only on a strictly larger score, so the
first maximal category wins. -/
def pyMaxBy (f : Category → ℚ) : List Category → Category → Category
  | [], best => best
  | c :: rest, best => pyMaxBy f rest (if f c > f best then c else best)

def argmaxCat (f : Category → ℚ) : Category :=
  pyMaxBy f [.not_spam, .promotional, .phishing, .newsletter, .social] .spam

/-- The combined score map produced for a non-empty text. -/
def finalScores (t : List Char) : Category → ℚ :=
  let ct := cleanText t
  let ot := lowerText t
  let f := extractFeatures t
  intelligentScoreCombination (keywordScores ct) (patternScores ot)
    (contextScores ot f) f

/-- `EmailClassifier.analyze_email`. -/
def analyzeEmail (text : String) : AnalysisResult :=
  let t := text.data
  if t.isEmpty ∨ (pyStrip t).isEmpty then
    createResult "unknown" 0 [] [] none
  else
    let final := finalScores t
    let primary := argmaxCat final
    let confidence := final primary
    let indicators := findIndicators t
    createResult (catName primary) confidence
      (categoryOrder.map (fun c => (c, final c))) indicators
      (some (extractFeatures t))

/- ### Specification-side reference definitions

These follow the wording of the specification (not the code) and exist
only to be compared against the embedded code. -/

/-- The score combiner as §4.5 of the specification describes it: the
weighted blend, then the contextual multipliers (spam ×1.5 when
`word_count < 20` and `exclamation_count > 3`; not_spam ×1.3 when
`word_count > 50` and `exclamation_count ≤ 2`; newsletter ×1.2 when
`word_count > 80`), then the floor rule and normalization. -/
def specAdjusted (ks ps cs : Category → ℚ) (f : Features) (c : Category) : ℚ :=
  match c with
  | Category.spam =>
    if f.word_count < 20 ∧ f.exclamation_count > 3 then
      weightedCombine ks ps cs c * (3/2)
    else weightedCombine ks ps cs c
  | Category.not_spam =>
    if f.word_count > 50 ∧ f.exclamation_count ≤ 2 then
      weightedCombine ks ps cs c * (13/10)
    else weightedCombine ks ps cs c
  | Category.newsletter =>
    if f.word_count > 80 then weightedCombine ks ps cs c * (6/5)
    else weightedCombine ks ps cs c
  | _ => weightedCombine ks ps cs c

def specScoreCombination (ks ps cs : Category → ℚ) (f : Features) (c : Category) : ℚ :=
  let floored :=
    if ∀ c' ∈ categoryOrder, specAdjusted ks ps cs f c' < 1/5 then
      fun c' => if c' = Category.not_spam then 7/10 else specAdjusted ks ps cs f c'
    else specAdjusted ks ps cs f
  let total := (categoryOrder.map floored).sum
  if total > 0 then floored c / total else floored c

/-- The keyword raw total as the claim words it: occurrence count times
weight times phrase bonus, summed without a containment guard. -/
def claimKeywordRaw (ct : List Char) (c : Category) : ℚ :=
  (((catKeywords c).map String.data).map (fun k =>
    ((countSub k ct : ℕ) : ℚ) * catWeight c * contextBonus k)).sum

/-- The risk-tier rule of one table row, as the claim words it. -/
def claimTier (hi med percent : ℚ) : String :=
  if percent ≥ hi then "high" else if percent ≥ med then "medium" else "low"

/-- Numeric order of the risk tiers, `low < medium < high`. -/
def tierOrd : String → ℕ
  | "medium" => 1
  | "high" => 2
  | _ => 0

/-- The claim's notion for C10: the text contains a word of at least four
consecutive ASCII letters, delimited by the start/end of the text or by
non-word characters. -/
def hasLetterWord (t : List Char) : Prop :=
  ∃ pre run suf, t = pre ++ run ++ suf ∧ 4 ≤ run.length ∧
    (∀ c ∈ run, isLetterChar c = true) ∧
    (pre = [] ∨ ∃ d, pre.getLast? = some d ∧ isWordChar d = false) ∧
    (suf = [] ∨ ∃ d, suf.head? = some d ∧ isWordChar d = false)

/- ### Concrete inputs used by the counterexamples -/

/-- Keyword-score map with two equal nonzero entries. -/
def c1ks : Category → ℚ
  | Category.spam => 1
  | Category.phishing => 1
  | _ => 0

/-- A feature record with `word_count = 5 < 20` and
`exclamation_count = 4 > 3`. -/
def c1features : Features :=
  { char_count := 30, word_count := 5, sentence_count := 1
    avg_word_length := 5, exclamation_count := 4, question_count := 0
    caps_ratio := 0, url_count := 0, email_addresses := 0
    phone_numbers := 0, money_mentions := 0 }

/-- 45 words hitting only keywords, chosen so that every category's raw
keyword total is exactly 12 and no pattern or context signal fires: the
six combined scores are all `0.24`, hence all normalized scores are
exactly `1/6`. -/
def c2text : String :=
  "win win win win team team team team team team team team team team team team buy buy buy buy buy buy suspended suspended suspended digest digest digest digest digest digest digest digest digest digest digest digest tagged tagged tagged tagged tagged tagged tagged tagged"

/-- Three `www.`-style URLs and no `http(s)://` URL. -/
def c8text : String := "www.a.com www.b.com www.c.com"

/-! ## Theorems -/

/-- C1: the specification says the combiner applies contextual
multipliers (spam ×1.5 for short exclamatory texts, not_spam ×1.3 for
long calm texts, newsletter ×1.2 for long texts) between the weighted
blend and the floor rule.  The code applies no such multipliers: at a
feature record with `word_count = 5 < 20` and `exclamation_count = 4 > 3`
and two equally-scored categories the code's combiner and the
specification's combiner disagree on the spam score. -/
theorem combiner_multiplier_counterexample :
    c1features.word_count < 20 ∧ 3 < c1features.exclamation_count ∧
    intelligentScoreCombination c1ks (fun _ => 0) (fun _ => 0) c1features Category.spam
      ≠ specScoreCombination c1ks (fun _ => 0) (fun _ => 0) c1features Category.spam := by
  refine ⟨by decide, by decide, ?_⟩
  have h1 : intelligentScoreCombination c1ks (fun _ => 0) (fun _ => 0) c1features
      Category.spam = 1/2 := by with_unfolding_all rfl
  have h2 : specScoreCombination c1ks (fun _ => 0) (fun _ => 0) c1features
      Category.spam = 3/5 := by with_unfolding_all rfl
  rw [h1, h2]
  norm_num

/-- C1 (amended): `_intelligent_score_combination` applies no contextual
multiplier at all — its result does not depend on the `features` argument
in any way; the combined scores go directly from the weighted blend to
the floor rule and normalization. -/
theorem combiner_ignores_features (ks ps cs : Category → ℚ) (f f' : Features) :
    intelligentScoreCombination ks ps cs f = intelligentScoreCombination ks ps cs f' :=
  rfl

/-- C3: on an empty or whitespace-only input, `analyze_email`
short-circuits to the degenerate result: category `unknown`, confidence
`0`, no scores, no indicators, empty feature record (and the `low` risk
tier that `_assess_risk` assigns to it). -/
theorem analyze_empty_input (s : String)
    (h : s.data = [] ∨ ∀ c ∈ s.data, isPySpace c = true) :
    analyzeEmail s =
      { category := "unknown", display_name := "Unknown", confidence := 0,
        color := "#6c757d", icon := "❓", scores := [], risk_level := "low",
        indicators := [], features := none } := by
  have hstrip : (pyStrip s.data).isEmpty = true := by
    rcases h with h | h
    · rw [h]; rfl
    · unfold pyStrip
      rw [List.dropWhile_eq_nil_iff.mpr fun x hx => h x hx]
      rfl
  unfold analyzeEmail
  rw [if_pos (Or.inr hstrip)]
  with_unfolding_all rfl

/-- C3 witness: the whitespace-only input `"  \t "`. -/
theorem analyze_empty_input_witness :
    ((" \t  " : String).data = [] ∨ ∀ c ∈ (" \t  " : String).data, isPySpace c = true) ∧
    analyzeEmail " \t  " =
      { category := "unknown", display_name := "Unknown", confidence := 0,
        color := "#6c757d", icon := "❓", scores := [], risk_level := "low",
        indicators := [], features := none } :=
  ⟨Or.inr (by decide), analyze_empty_input " \t  " (Or.inr (by decide))⟩

/-- C9: `analyze_email` is a function of the input text alone — equal
inputs produce identical category, confidence, risk level, indicator
list, and per-category score list. -/
theorem analyze_deterministic (s t : String) (h : s = t) :
    (analyzeEmail s).category = (analyzeEmail t).category ∧
    (analyzeEmail s).confidence = (analyzeEmail t).confidence ∧
    (analyzeEmail s).risk_level = (analyzeEmail t).risk_level ∧
    (analyzeEmail s).indicators = (analyzeEmail t).indicators ∧
    (analyzeEmail s).scores = (analyzeEmail t).scores := by
  subst h
  exact ⟨rfl, rfl, rfl, rfl, rfl⟩

/-- C9 witness: two textually equal invocations agree. -/
theorem analyze_deterministic_witness :
    ("free money" : String) = "free money" ∧
    (analyzeEmail "free money").category = (analyzeEmail "free money").category :=
  ⟨rfl, (analyze_deterministic "free money" "free money" rfl).1⟩

/-- C5: on the winning category's confidence (0–1 scale, multiplied by
100 inside `_assess_risk`), the risk tier follows the per-category
threshold table of the claim row by row, and any category string outside
the table — `unknown` included — falls back to the spam thresholds.  The
`features` argument plays no role. -/
theorem risk_threshold_table (conf : ℚ) (f : Option Features) (h1 : conf ≤ 1) :
    assessRisk "spam" conf f = claimTier 70 40 (conf * 100) ∧
    assessRisk "phishing" conf f = claimTier 60 30 (conf * 100) ∧
    assessRisk "promotional" conf f = claimTier 85 50 (conf * 100) ∧
    assessRisk "not_spam" conf f = claimTier 95 80 (conf * 100) ∧
    assessRisk "newsletter" conf f = claimTier 90 60 (conf * 100) ∧
    assessRisk "social" conf f = claimTier 80 50 (conf * 100) ∧
    ∀ cat, cat ∉ ["spam", "not_spam", "promotional", "phishing", "newsletter", "social"] →
      assessRisk cat conf f = assessRisk "spam" conf f := by
  refine ⟨?_, ?_, ?_, ?_, ?_, ?_, ?_⟩
  case _ => simp only [assessRisk, riskThresholds, claimTier]; rw [if_pos h1]
  case _ => simp only [assessRisk, riskThresholds, claimTier]; rw [if_pos h1]
  case _ => simp only [assessRisk, riskThresholds, claimTier]; rw [if_pos h1]
  case _ => simp only [assessRisk, riskThresholds, claimTier]; rw [if_pos h1]
  case _ => simp only [assessRisk, riskThresholds, claimTier]; rw [if_pos h1]
  case _ => simp only [assessRisk, riskThresholds, claimTier]; rw [if_pos h1]
  intro cat hcat
  have hth : riskThresholds cat = (70, 40) := by
    unfold riskThresholds
    split <;> simp_all
  simp only [assessRisk]
  rw [hth, show riskThresholds "spam" = (70, 40) from rfl]

/-- C5 witness: `promotional` at 60% confidence is `medium` risk. -/
theorem risk_threshold_table_witness :
    ((3 : ℚ)/5 ≤ 1) ∧
    assessRisk "promotional" (3/5) none = claimTier 85 50 ((3/5) * 100) :=
  ⟨by norm_num, (risk_threshold_table (3/5) none (by norm_num)).2.2.1⟩

/-- C7: with the category fixed and the confidence in `[0,1]`, a larger
confidence never yields a smaller risk tier (`low < medium < high`). -/
theorem risk_monotone_in_confidence (cat : String) (f : Option Features)
    (c1 c2 : ℚ) (h0 : 0 ≤ c1) (h12 : c1 ≤ c2) (h1 : c2 ≤ 1) :
    tierOrd (assessRisk cat c1 f) ≤ tierOrd (assessRisk cat c2 f) := by
  simp only [assessRisk]
  rw [if_pos (le_trans h12 h1), if_pos h1]
  have hmul : c1 * 100 ≤ c2 * 100 := by linarith
  split_ifs <;> simp [tierOrd] <;> linarith

/-- C7 witness: spam risk at confidence 0.2 versus 0.5. -/
theorem risk_monotone_in_confidence_witness :
    (0 ≤ (1 : ℚ)/5) ∧ ((1 : ℚ)/5 ≤ 1/2) ∧ ((1 : ℚ)/2 ≤ 1) ∧
    tierOrd (assessRisk "spam" (1/5) none) ≤ tierOrd (assessRisk "spam" (1/2) none) :=
  ⟨by norm_num, by norm_num, by norm_num,
    risk_monotone_in_confidence "spam" none (1/5) (1/2)
      (by norm_num) (by norm_num) (by norm_num)⟩

theorem mem_addIf {x label : String} {b : Bool} :
    x ∈ addIf b label ↔ b = true ∧ x = label := by
  cases b <;> simp [addIf]

/-- C8: the `Multiple URLs` indicator fires exactly when more than two
URLs match `https?://\S+` — only `http(s)://`-prefixed URLs, not the
`url_count` feature, which also counts `www.`-prefixed ones.  A text with
three `www.` URLs has `url_count = 3 > 2` yet gets no `Multiple URLs`
indicator, refuting the claim as stated. -/
theorem url_indicator_counterexample :
    2 < (extractFeatures c8text.data).url_count ∧
    "Multiple URLs" ∉ findIndicators c8text.data := by
  refine ⟨by decide, by decide⟩

/-- C8 (amended): the indicator finder adds `Multiple URLs` exactly when
the count of `https?://`-prefixed URLs exceeds 2 (the `www.`-only URLs of
the `url_count` feature do not contribute), adds
`Excessive Punctuation` exactly when the `!` count exceeds 5, and
returns a duplicate-free list. -/
theorem indicator_membership (t : List Char) :
    ("Multiple URLs" ∈ findIndicators t ↔ 2 < countMatches matchHttpUrl t) ∧
    ("Excessive Punctuation" ∈ findIndicators t ↔ 5 < bangCount t) ∧
    (findIndicators t).Nodup := by
  unfold findIndicators
  refine ⟨?_, ?_, List.nodup_dedup _⟩ <;>
    simp [List.mem_dedup, List.mem_append, mem_addIf, decide_eq_true_eq]

theorem containsSub_nil (t : List Char) : containsSub [] t = true := by
  cases t <;> simp [containsSub, List.isPrefixOf]

theorem countSubGo_eq_zero {k : List Char} :
    ∀ {t : List Char}, containsSub k t = false → countSubGo k 0 t = 0 := by
  intro t
  induction t with
  | nil => intro _; rfl
  | cons c rest ih =>
    intro h
    rw [containsSub, Bool.or_eq_false_iff] at h
    rw [countSubGo, if_neg (by simp [h.1]), ih h.2]

theorem countSub_eq_zero {k t : List Char} (h : containsSub k t = false) :
    countSub k t = 0 := by
  have hk : k.isEmpty = false := by
    cases k with
    | nil => rw [containsSub_nil] at h; exact absurd h (by simp)
    | cons _ _ => rfl
  unfold countSub
  rw [hk]
  exact countSubGo_eq_zero h

theorem catWeight_pos (c : Category) : 0 < catWeight c := by
  cases c <;> norm_num [catWeight]

theorem contextBonus_pos (k : List Char) : 0 < contextBonus k := by
  unfold contextBonus
  split <;> norm_num

theorem keywordRaw_eq_claim (ct : List Char) (c : Category) :
    keywordRaw ct c = claimKeywordRaw ct c := by
  unfold keywordRaw claimKeywordRaw
  refine congrArg List.sum (List.map_congr_left fun k _ => ?_)
  by_cases h : containsSub k ct
  · rw [if_pos h]; ring
  · rw [if_neg h, countSub_eq_zero (Bool.of_not_eq_true h)]
    simp

theorem claimKeywordRaw_nonneg (ct : List Char) (c : Category) :
    0 ≤ claimKeywordRaw ct c := by
  refine List.sum_nonneg fun x hx => ?_
  simp only [List.mem_map] at hx
  obtain ⟨k, -, rfl⟩ := hx
  have h1 := catWeight_pos c
  have h2 := contextBonus_pos k
  positivity

/-- C6: for every category, the keyword score is `min(S/20, 1)` where `S`
sums, over the category's keywords, the keyword's non-overlapping
occurrence count in the lowercased whitespace-normalized text times the
category weight times the phrase bonus (1.5 for multi-word keywords,
else 1); every keyword score lies in `[0, 1]`. -/
theorem keyword_score_formula (t : List Char) (c : Category) :
    keywordScores (cleanText t) c = min (claimKeywordRaw (cleanText t) c / 20) 1 ∧
    0 ≤ keywordScores (cleanText t) c ∧ keywordScores (cleanText t) c ≤ 1 := by
  unfold keywordScores
  refine ⟨by rw [keywordRaw_eq_claim], le_min ?_ zero_le_one, min_le_right _ _⟩
  have := claimKeywordRaw_nonneg (cleanText t) c
  rw [keywordRaw_eq_claim]
  positivity

theorem ite_nonneg_q {p : Prop} [Decidable p] {a b : ℚ} (ha : 0 ≤ a) (hb : 0 ≤ b) :
    0 ≤ if p then a else b := by
  split <;> assumption

theorem keywordScores_nonneg (ct : List Char) (c : Category) :
    0 ≤ keywordScores ct c := by
  unfold keywordScores
  refine le_min ?_ zero_le_one
  have h1 : 0 ≤ keywordRaw ct c := by
    rw [keywordRaw_eq_claim]; exact claimKeywordRaw_nonneg ct c
  positivity

theorem patternScores_nonneg (ot : List Char) (c : Category) :
    0 ≤ patternScores ot c := by
  unfold patternScores
  refine add_nonneg (add_nonneg (add_nonneg (add_nonneg (add_nonneg ?_ ?_) ?_) ?_) ?_) ?_ <;>
    refine ite_nonneg_q ?_ le_rfl <;> cases c <;> norm_num

theorem contextScores_nonneg (ot : List Char) (f : Features) (c : Category) :
    0 ≤ contextScores ot f c := by
  unfold contextScores
  cases c <;> dsimp only <;> (try split_ifs) <;> norm_num

theorem weightedCombine_nonneg {ks ps cs : Category → ℚ}
    (hks : ∀ c, 0 ≤ ks c) (hps : ∀ c, 0 ≤ ps c) (hcs : ∀ c, 0 ≤ cs c)
    (c : Category) : 0 ≤ weightedCombine ks ps cs c := by
  unfold weightedCombine
  have := hks c; have := hps c; have := hcs c
  positivity

theorem flooredCombine_nonneg {ks ps cs : Category → ℚ}
    (h : ∀ c, 0 ≤ weightedCombine ks ps cs c) (c : Category) :
    0 ≤ flooredCombine ks ps cs c := by
  unfold flooredCombine
  split_ifs
  · norm_num
  · exact h c
  · exact h c

theorem flooredCombine_exists_large (ks ps cs : Category → ℚ) :
    ∃ c, 1/5 ≤ flooredCombine ks ps cs c := by
  by_cases hall : ∀ c' ∈ categoryOrder, weightedCombine ks ps cs c' < 1/5
  · refine ⟨Category.not_spam, ?_⟩
    unfold flooredCombine
    rw [if_pos hall, if_pos rfl]
    norm_num
  · have hall' := hall
    push_neg at hall'
    obtain ⟨c, _, hge⟩ := hall'
    refine ⟨c, ?_⟩
    unfold flooredCombine
    rw [if_neg hall]
    exact hge

theorem combineTotal_pos {ks ps cs : Category → ℚ}
    (h : ∀ c, 0 ≤ weightedCombine ks ps cs c) :
    0 < combineTotal ks ps cs := by
  have h1 := flooredCombine_nonneg h Category.spam
  have h2 := flooredCombine_nonneg h Category.not_spam
  have h3 := flooredCombine_nonneg h Category.promotional
  have h4 := flooredCombine_nonneg h Category.phishing
  have h5 := flooredCombine_nonneg h Category.newsletter
  have h6 := flooredCombine_nonneg h Category.social
  obtain ⟨c, hc⟩ := flooredCombine_exists_large ks ps cs
  unfold combineTotal
  simp only [categoryOrder, List.map_cons, List.map_nil, List.sum_cons, List.sum_nil,
    add_zero]
  cases c <;> linarith

theorem combination_sum_one (ks ps cs : Category → ℚ) (f : Features)
    (h : ∀ c, 0 ≤ weightedCombine ks ps cs c) :
    (categoryOrder.map (intelligentScoreCombination ks ps cs f)).sum = 1 := by
  have hT := combineTotal_pos h
  unfold intelligentScoreCombination
  simp only [if_pos hT, categoryOrder, List.map_cons, List.map_nil, List.sum_cons,
    List.sum_nil, add_zero]
  have hsum : flooredCombine ks ps cs Category.spam
      + flooredCombine ks ps cs Category.not_spam
      + flooredCombine ks ps cs Category.promotional
      + flooredCombine ks ps cs Category.phishing
      + flooredCombine ks ps cs Category.newsletter
      + flooredCombine ks ps cs Category.social = combineTotal ks ps cs := by
    unfold combineTotal
    simp only [categoryOrder, List.map_cons, List.map_nil, List.sum_cons, List.sum_nil]
    ring
  field_simp
  linarith

/-- The per-text weighted-combine map of the pipeline is nonnegative. -/
theorem pipeline_weighted_nonneg (t : List Char) (c : Category) :
    0 ≤ weightedCombine (keywordScores (cleanText t)) (patternScores (lowerText t))
        (contextScores (lowerText t) (extractFeatures t)) c :=
  weightedCombine_nonneg (keywordScores_nonneg _) (patternScores_nonneg _)
    (contextScores_nonneg _ _) c

/-- Every text's final (normalized) score map sums to exactly 1. -/
theorem finalScores_sum_one (t : List Char) :
    (categoryOrder.map (finalScores t)).sum = 1 := by
  have h := combination_sum_one (keywordScores (cleanText t)) (patternScores (lowerText t))
    (contextScores (lowerText t) (extractFeatures t)) (extractFeatures t)
    (pipeline_weighted_nonneg t)
  exact h

theorem rndHalfEven_abs_le (x : ℚ) : |(rndHalfEven x : ℚ) - x| ≤ 1/2 := by
  have h0 : (⌊x⌋ : ℚ) ≤ x := Int.floor_le x
  have h1 : x < ⌊x⌋ + 1 := Int.lt_floor_add_one x
  simp only [rndHalfEven]
  split_ifs <;> rw [abs_le] <;> constructor <;> push_cast <;> linarith

theorem round1_abs_le (y : ℚ) : |round1 y - y| ≤ 1/20 := by
  have h := rndHalfEven_abs_le (10 * y)
  unfold round1
  rw [show (rndHalfEven (10 * y) : ℚ)/10 - y = ((rndHalfEven (10 * y) : ℚ) - 10 * y)/10
      from by ring,
    abs_div, show |(10 : ℚ)| = 10 from by norm_num]
  linarith

theorem insertDesc_score_sum (x : ScoreEntry) (l : List ScoreEntry) :
    ((insertDesc x l).map (·.score)).sum = x.score + (l.map (·.score)).sum := by
  induction l with
  | nil => simp [insertDesc]
  | cons y ys ih =>
    unfold insertDesc
    split_ifs
    · simp
    · simp only [List.map_cons, List.sum_cons, ih]
      ring

theorem sortDesc_score_sum (l : List ScoreEntry) :
    ((sortDesc l).map (·.score)).sum = (l.map (·.score)).sum := by
  induction l with
  | nil => rfl
  | cons x xs ih =>
    rw [sortDesc, insertDesc_score_sum, ih, List.map_cons, List.sum_cons]

/-- On a non-blank input, `analyze_email` takes the main branch. -/
theorem analyzeEmail_nondegenerate (s : String)
    (h : (pyStrip s.data).isEmpty = false) :
    analyzeEmail s =
      createResult (catName (argmaxCat (finalScores s.data)))
        (finalScores s.data (argmaxCat (finalScores s.data)))
        (categoryOrder.map (fun c => (c, finalScores s.data c)))
        (findIndicators s.data) (some (extractFeatures s.data)) := by
  have hne : ¬(s.data.isEmpty = true ∨ (pyStrip s.data).isEmpty = true) := by
    rintro (h1 | h1)
    · rw [List.isEmpty_iff] at h1
      rw [h1] at h
      exact absurd h (by decide)
    · rw [h1] at h
      cases h
  unfold analyzeEmail
  rw [if_neg hne]

/-- C2 fails as stated: the six normalized scores can all be exactly
`1/6`, each rounding up to `16.7`, so the displayed percentages sum to
`100.2` — outside the claimed `±0.1` tolerance. -/
theorem scores_sum_counterexample :
    (pyStrip c2text.data).isEmpty = false ∧
    ((analyzeEmail c2text).scores.map (·.score)).sum = 501/5 ∧
    ¬ |((analyzeEmail c2text).scores.map (·.score)).sum - 100| ≤ 1/10 := by
  have hsum : ((analyzeEmail c2text).scores.map (·.score)).sum = 501/5 := by
    with_unfolding_all rfl
  refine ⟨by decide, hsum, ?_⟩
  rw [hsum, show (501 : ℚ)/5 - 100 = 1/5 from by norm_num,
    abs_of_pos (by norm_num : (0 : ℚ) < 1/5)]
  norm_num

/-- C2 (amended): for every non-blank input the normalized combined
scores sum to exactly 1 (the floor rule keeps the pre-normalization total
positive), and the six displayed percentages — each rounded to one
decimal — sum to 100 within `±0.3` (six roundings of at most `0.05`
each; `±0.1` is refuted by `scores_sum_counterexample`). -/
theorem scores_sum_bound (s : String) (h : (pyStrip s.data).isEmpty = false) :
    (categoryOrder.map (finalScores s.data)).sum = 1 ∧
    |((analyzeEmail s).scores.map (·.score)).sum - 100| ≤ 3/10 := by
  refine ⟨finalScores_sum_one s.data, ?_⟩
  rw [analyzeEmail_nondegenerate s h]
  simp only [createResult]
  rw [sortDesc_score_sum]
  simp only [List.map_map]
  have hsum := finalScores_sum_one s.data
  simp only [categoryOrder, List.map_cons, List.map_nil, List.sum_cons, List.sum_nil,
    add_zero, Function.comp_apply] at hsum ⊢
  have b1 := round1_abs_le (finalScores s.data Category.spam * 100)
  have b2 := round1_abs_le (finalScores s.data Category.not_spam * 100)
  have b3 := round1_abs_le (finalScores s.data Category.promotional * 100)
  have b4 := round1_abs_le (finalScores s.data Category.phishing * 100)
  have b5 := round1_abs_le (finalScores s.data Category.newsletter * 100)
  have b6 := round1_abs_le (finalScores s.data Category.social * 100)
  rw [abs_le] at b1 b2 b3 b4 b5 b6 ⊢
  constructor <;> [linarith; linarith]

/-- C2 witness: a small non-blank input. -/
theorem scores_sum_bound_witness :
    (pyStrip ("hello" : String).data).isEmpty = false ∧
    (categoryOrder.map (finalScores ("hello" : String).data)).sum = 1 :=
  ⟨by decide, (scores_sum_bound "hello" (by decide)).1⟩

theorem argmaxCat_spec (f : Category → ℚ) :
    (∀ c, f c ≤ f (argmaxCat f)) ∧
    (∀ c, catIdx c < catIdx (argmaxCat f) → f c < f (argmaxCat f)) := by
  unfold argmaxCat
  simp only [pyMaxBy]
  split_ifs <;>
    constructor <;>
      intro c <;>
        (try intro hc) <;>
          cases c <;>
            simp only [catIdx] at * <;>
              first
                | linarith
                | omega

/-- C4: on a non-blank input the result's category is the argmax of the
combined score map — every category scores at most the winner, and every
category strictly earlier in declaration order scores strictly less, so
ties go to the first category in declaration order — and the confidence
is the winner's normalized score times 100 rounded to two decimals. -/
theorem result_argmax (s : String) (h : (pyStrip s.data).isEmpty = false) :
    (analyzeEmail s).category = catName (argmaxCat (finalScores s.data)) ∧
    (∀ c, finalScores s.data c ≤ finalScores s.data (argmaxCat (finalScores s.data))) ∧
    (∀ c, catIdx c < catIdx (argmaxCat (finalScores s.data)) →
      finalScores s.data c < finalScores s.data (argmaxCat (finalScores s.data))) ∧
    (analyzeEmail s).confidence =
      round2 (finalScores s.data (argmaxCat (finalScores s.data)) * 100) := by
  obtain ⟨h1, h2⟩ := argmaxCat_spec (finalScores s.data)
  rw [analyzeEmail_nondegenerate s h]
  exact ⟨rfl, h1, h2, rfl⟩

/-- C4 witness: `"hurry"` (phishing beats spam `6/11 > 5/11`). -/
theorem result_argmax_witness :
    (pyStrip ("hurry" : String).data).isEmpty = false ∧
    (analyzeEmail "hurry").category = catName (argmaxCat (finalScores ("hurry" : String).data)) :=
  ⟨by decide, (result_argmax "hurry" (by decide)).1⟩

theorem takeWhile_append_run (p : Char → Bool) (run suf : List Char)
    (h : ∀ c ∈ run, p c = true)
    (h2 : ∀ d, suf.head? = some d → p d = false) :
    (run ++ suf).takeWhile p = run := by
  induction run with
  | nil =>
    simp only [List.nil_append]
    cases suf with
    | nil => rfl
    | cons d ds => simp [List.takeWhile_cons_of_neg, h2 d rfl]
  | cons c cs ih =>
    rw [List.cons_append,
      List.takeWhile_cons_of_pos (by simp [h c (List.mem_cons_self c cs)]),
      ih (fun x hx => h x (List.mem_cons_of_mem c hx))]

theorem capsWordsGo_of_run (run suf : List Char) (hlen : 4 ≤ run.length)
    (halpha : ∀ c ∈ run, isLetterChar c = true)
    (hsuf : ∀ d, suf.head? = some d → isWordChar d = false) :
    ∀ (pre : List Char) (pw : Bool), (pre = [] → pw = false) →
      (∀ d, pre.getLast? = some d → isWordChar d = false) →
      capsWordsGo pw (pre ++ (run ++ suf)) = true := by
  have hsuf' : ∀ d, suf.head? = some d → isLetterChar d = false := by
    intro d hd
    have hw := hsuf d hd
    unfold isWordChar at hw
    simp only [Bool.or_eq_false_iff] at hw
    exact hw.1.1
  intro pre
  induction pre with
  | nil =>
    intro pw hpw _
    rw [hpw rfl, List.nil_append]
    cases run with
    | nil => simp at hlen
    | cons c cs =>
      rw [List.cons_append, capsWordsGo]
      have hrun : letterRunLen (c :: (cs ++ suf)) = (c :: cs).length := by
        unfold letterRunLen
        rw [show c :: (cs ++ suf) = (c :: cs) ++ suf from rfl,
          takeWhile_append_run _ _ _ halpha hsuf']
      rw [hrun]
      have hb : boundaryAfter ((c :: (cs ++ suf)).drop (c :: cs).length) = true := by
        rw [show c :: (cs ++ suf) = (c :: cs) ++ suf from rfl, List.drop_left]
        cases suf with
        | nil => rfl
        | cons d ds => simp [boundaryAfter, hsuf d rfl]
      rw [hb]
      simp only [List.length_cons] at hlen ⊢
      rw [decide_eq_true (by omega : 4 ≤ cs.length + 1)]
      rfl
  | cons a pre ih =>
    intro pw h1 h2
    rw [List.cons_append, capsWordsGo]
    have hrec : capsWordsGo (isWordChar a) (pre ++ (run ++ suf)) = true := by
      apply ih
      · intro hpre
        subst hpre
        exact h2 a rfl
      · intro d hd
        apply h2
        cases pre with
        | nil => cases hd
        | cons b bs => rw [List.getLast?_cons_cons]; exact hd
    rw [hrec, Bool.or_true]

/-- C10: because `_find_indicators` searches the `caps_words` pattern
`\b[A-Z]{4,}\b` with `re.IGNORECASE`, the `Excessive Caps` label is added
for every text containing a word of four or more consecutive letters of
any case — entirely lowercase words like `this` included. -/
theorem caps_indicator_case_blind (s : String) (h : hasLetterWord s.data) :
    "Excessive Caps" ∈ findIndicators s.data := by
  obtain ⟨pre, run, suf, heq, hlen, halpha, hpre, hsuf⟩ := h
  have hsufw : ∀ d, suf.head? = some d → isWordChar d = false := by
    intro d hd
    rcases hsuf with rfl | ⟨d2, hd2, hw⟩
    · cases hd
    · rw [hd2] at hd
      injection hd with hdd
      exact hdd ▸ hw
  have hprew : ∀ d, pre.getLast? = some d → isWordChar d = false := by
    intro d hd
    rcases hpre with rfl | ⟨d2, hd2, hw⟩
    · cases hd
    · rw [hd2] at hd
      injection hd with hdd
      exact hdd ▸ hw
  have hscan : capsWordsSearch s.data = true := by
    unfold capsWordsSearch
    rw [heq, List.append_assoc]
    exact capsWordsGo_of_run run suf hlen halpha hsufw pre false (fun _ => rfl) hprew
  unfold findIndicators
  simp [List.mem_dedup, List.mem_append, mem_addIf, hscan]

/-- C10 witness: the fully lowercase text `"this"`. -/
theorem caps_indicator_case_blind_witness :
    hasLetterWord ("this" : String).data ∧
    "Excessive Caps" ∈ findIndicators ("this" : String).data := by
  have h : hasLetterWord ("this" : String).data :=
    ⟨[], "this".data, [], by simp, by decide, by decide, Or.inl rfl, Or.inl rfl⟩
  exact ⟨h, caps_indicator_case_blind "this" h⟩

end SpamDetect
